import Mathlib

/-!
Shallow embedding of the record storage and synchronization logic of
`src/frontend/web/src/App.tsx` (the voter-registration front end): the
`VoterRecord` data model, the record/index codec, `loadRecords` (refresh),
`registerVoter` (register) and `verifyRecord` / `rejectRecord` (status
transitions), together with theorems checking the specification claims.
-/

/-- Status field of a voter record: `"pending" | "verified" | "rejected"`
(App.tsx line 13). -/
inductive Status where
  | pending
  | verified
  | rejected
deriving DecidableEq

/-- The JSON object stored under a record key, exactly the `recordData`
object `registerVoter` serializes (App.tsx lines 157-164):
`{data, timestamp, owner, region, ageGroup, status}`.  The `status` field is
optional because `loadRecords` defaults a missing status to pending
(`recordData.status || "pending"`, line 112). -/
structure StoredJson where
  data : String
  timestamp : Nat
  owner : String
  region : String
  ageGroup : String
  status : Option Status
deriving DecidableEq

/-- Byte payload stored under a key, abstracted at the granularity the source
distinguishes: empty bytes (`length === 0`, meaning absent), non-empty bytes
on which `JSON.parse` throws, a JSON array of id strings, and a JSON record
object.  No write of this application ever stores an array under a record
key or a record object under the index key; the embedding treats reading an
array where a record object is expected as a decode failure (in the source
it would yield a record whose fields are all `undefined`). -/
inductive Bytes where
  | empty
  | corrupt
  | arr (ids : List String)
  | obj (j : StoredJson)
deriving DecidableEq

/-- Result of one `contract.getData(key)` call: the call can throw, or
return bytes. -/
inductive Fetch where
  | err
  | ok (b : Bytes)
deriving DecidableEq

/-- The generic key/value contract: the `isAvailable()` probe plus the
stored key/value map.  Writes (`setData`) are modeled as always succeeding;
read failures are modeled by `Fetch.err`. -/
structure Store where
  avail : Bool
  data : String → Fetch

/-- `contract.setData(key, bytes)`: functional update of the stored map. -/
def Store.set (st : Store) (key : String) (b : Bytes) : Store :=
  { st with data := fun k => if k = key then .ok b else st.data k }

/-- Key of a single record: `record_` followed by the record id
(template `record_${id}` in the source). -/
def recordKey (id : String) : String := "record_" ++ id

/-- The well-known index key `"record_keys"` (App.tsx lines 86, 172, 186). -/
def indexKey : String := "record_keys"

/-- The `VoterRecord` interface (App.tsx lines 8-16). -/
structure VoterRecord where
  id : String
  encryptedData : String
  timestamp : Nat
  owner : String
  region : String
  ageGroup : String
  status : Status
deriving DecidableEq

/-- Field mapping `loadRecords` applies to a parsed record object (App.tsx
lines 104-113): the `id` comes from the record key, `encryptedData` from the
stored `data` field, and a missing `status` defaults to pending. -/
def decodeRecord (key : String) (j : StoredJson) : VoterRecord :=
  { id := key
    encryptedData := j.data
    timestamp := j.timestamp
    owner := j.owner
    region := j.region
    ageGroup := j.ageGroup
    status := j.status.getD .pending }

/-- The JSON object written for a record: every field of the record, with
`encryptedData` stored under the `data` key and `status` always present
(App.tsx lines 157-164). -/
def encodeRecord (r : VoterRecord) : StoredJson :=
  { data := r.encryptedData
    timestamp := r.timestamp
    owner := r.owner
    region := r.region
    ageGroup := r.ageGroup
    status := some r.status }

/-- The index-reading step shared by `loadRecords` (lines 86-95) and
`registerVoter` (lines 172-181): empty bytes or a `JSON.parse` failure yield
the empty key list (the parse error is caught and only logged); a JSON array
yields its ids; a JSON object parses, but the subsequent `for ... of`
iteration (in `loadRecords`) or `keys.push` (in `registerVoter`) then throws
on the non-array value, aborting the surrounding operation (`none`). -/
def indexKeysOfBytes : Bytes → Option (List String)
  | .empty => some []
  | .corrupt => some []
  | .arr ids => some ids
  | .obj _ => none

/-- One iteration of the `for (const key of keys)` loop in `loadRecords`
(lines 99-121): a throwing `getData`, empty bytes, or a failing `JSON.parse`
all skip the id (`none`, the error is caught and logged); a record object is
decoded and pushed. -/
def fetchRecord (st : Store) (key : String) : Option VoterRecord :=
  match st.data (recordKey key) with
  | .err => none
  | .ok .empty => none
  | .ok .corrupt => none
  | .ok (.arr _) => none
  | .ok (.obj j) => some (decodeRecord key j)

/-- `list.sort((a, b) => b.timestamp - a.timestamp)` (line 123): sort by
timestamp descending, modeled by a stable sort with the same order. -/
def sortByTimestampDesc (l : List VoterRecord) : List VoterRecord :=
  l.insertionSort (fun a b => b.timestamp ≤ a.timestamp)

/-- `loadRecords` (App.tsx lines 73-131).  Result `none` models every path
on which `setRecords` is not reached (the availability probe returning
false, a throwing index fetch, or an index that parses to a non-array);
`some l` models `setRecords(l)`, the wholesale snapshot replacement.  All
failure paths are caught internally and only logged: the caller observes no
error.  Obtaining the read-only contract is assumed to succeed. -/
def loadRecords (st : Store) : Option (List VoterRecord) :=
  if st.avail then
    match st.data indexKey with
    | .err => none
    | .ok b =>
      match indexKeysOfBytes b with
      | none => none
      | some keys => some (sortByTimestampDesc (keys.filterMap (fetchRecord st)))
  else none

/-- Outcome of a status-transition call, at the granularity the source
distinguishes: success, the explicit `"Record not found"` throw on empty
bytes, or any other caught error. -/
inductive TxResult where
  | success
  | notFound
  | failed
deriving DecidableEq

/-- Common body of `verifyRecord` (App.tsx lines 226-286) and `rejectRecord`
(lines 288-348), which are identical except for the written status: fetch
the record bytes, throw `"Record not found"` on empty bytes, `JSON.parse`
them, spread-copy the object with the new status, and write it back under
the same key.  `acct` is the connected account (the acting principal and
transaction signer); the source never reads it inside these functions - in
particular it is not compared against the stored `owner` field, and the
stored `status` field is never inspected.  The wallet-connection guard
(`if (!provider)`) precedes any store access and is omitted; the trailing
`loadRecords()` refresh does not change the store. -/
def transitionRecord (st : Store) (recordId : String) (newStatus : Status)
    (acct : String) : TxResult × Store :=
  match st.data (recordKey recordId) with
  | .err => (.failed, st)
  | .ok .empty => (.notFound, st)
  | .ok .corrupt => (.failed, st)
  | .ok (.arr _) => (.failed, st)
  | .ok (.obj j) =>
      (.success, st.set (recordKey recordId) (.obj { j with status := some newStatus }))

/-- `verifyRecord` (App.tsx lines 226-286): transition to verified. -/
def verifyRecord (st : Store) (recordId : String) (acct : String) :
    TxResult × Store :=
  transitionRecord st recordId .verified acct

/-- `rejectRecord` (App.tsx lines 288-348): transition to rejected. -/
def rejectRecord (st : Store) (recordId : String) (acct : String) :
    TxResult × Store :=
  transitionRecord st recordId .rejected acct

/-- The registration form data (`newRecordData`, App.tsx lines 32-36). -/
structure RegisterInput where
  region : String
  ageGroup : String
  sensitiveInfo : String
deriving DecidableEq

/-- The placeholder encryption `FHE-${btoa(JSON.stringify(newRecordData))}`
(line 148).  `btoa` and `JSON.stringify` are platform functions; they are
modeled as a plain injective serialization, since no claim depends on the
shape of the opaque payload. -/
def encryptData (i : RegisterInput) : String :=
  "FHE-" ++ i.region ++ ";" ++ i.ageGroup ++ ";" ++ i.sensitiveInfo

/-- The record `registerVoter` constructs (lines 155-164), parameterized by
the generated id (`Date.now()` plus a random suffix) and the timestamp. -/
def newRecord (acct : String) (input : RegisterInput) (rid : String)
    (ts : Nat) : VoterRecord :=
  { id := rid
    encryptedData := encryptData input
    timestamp := ts
    owner := acct
    region := input.region
    ageGroup := input.ageGroup
    status := .pending }

/-- Outcome of `registerVoter`: success with the generated id, or a caught
error (surfaced as an error transaction status). -/
inductive RegResult where
  | success (rid : String)
  | failed
deriving DecidableEq

/-- The store after the first write of `registerVoter`: the encoded record
stored under its record key (App.tsx lines 167-170). -/
def registerStore1 (st : Store) (acct : String) (input : RegisterInput)
    (rid : String) (ts : Nat) : Store :=
  st.set (recordKey rid) (.obj (encodeRecord (newRecord acct input rid ts)))

/-- `registerVoter` (App.tsx lines 133-224), parameterized by the generated
id and timestamp: write the encoded record under its record key, re-read the
index (a parse failure falls back to the empty list, line 173-181), push the
new id, and write the whole index back (lines 183-188).  A throwing index
read, or an index that parses to a non-array (whose `push` then throws),
aborts after the record write, leaving the record written but absent from
the index.  The trailing `loadRecords()` refresh does not change the
store. -/
def registerVoter (st : Store) (acct : String) (input : RegisterInput)
    (rid : String) (ts : Nat) : RegResult × Store :=
  let st1 := registerStore1 st acct input rid ts
  match st1.data indexKey with
  | .err => (.failed, st1)
  | .ok b =>
    match indexKeysOfBytes b with
    | none => (.failed, st1)
    | some keys => (.success rid, st1.set indexKey (.arr (keys ++ [rid])))

/-- The ids listed by the stored index: the content of the index key when it
holds a JSON array, and nothing otherwise. -/
def storedIndex (st : Store) : List String :=
  match st.data indexKey with
  | .ok (.arr ids) => ids
  | _ => []

/-- A record object is stored under the record key of `id`. -/
def hasRecordObj (st : Store) (id : String) : Bool :=
  match st.data (recordKey id) with
  | .ok (.obj _) => true
  | _ => false

/-- No orphan id: every id the stored index lists has its record written. -/
def IndexComplete (st : Store) : Prop :=
  ∀ id ∈ storedIndex st, hasRecordObj st id = true

instance (st : Store) : Decidable (IndexComplete st) :=
  inferInstanceAs (Decidable (∀ id ∈ storedIndex st, hasRecordObj st id = true))

/-- Test fixture: a store built from an association list of key/fetch pairs;
keys not listed hold empty bytes (absent). -/
def mkStore (avail : Bool) (entries : List (String × Fetch)) : Store :=
  { avail := avail
    data := fun k => ((entries.find? (fun e => e.1 = k)).map Prod.snd).getD (.ok .empty) }

/-! ### Helper lemmas -/

theorem recordKey_inj {a b : String} (h : recordKey a = recordKey b) : a = b := by
  have hd := congrArg String.data h
  simp only [recordKey, String.data_append] at hd
  exact String.ext (List.append_cancel_left hd)

theorem indexKey_eq_recordKey : indexKey = recordKey "keys" := rfl

theorem indexKey_ne_recordKey {id : String} (h : id ≠ "keys") :
    indexKey ≠ recordKey id :=
  fun hc => h (recordKey_inj (indexKey_eq_recordKey ▸ hc)).symm

theorem Store.set_data (st : Store) (key : String) (b : Bytes) (k : String) :
    (st.set key b).data k = if k = key then .ok b else st.data k := rfl

theorem transitionRecord_obj (st : Store) (id : String) (s : Status)
    (acct : String) (j : StoredJson) (h : st.data (recordKey id) = .ok (.obj j)) :
    transitionRecord st id s acct =
      (.success, st.set (recordKey id) (.obj { j with status := some s })) := by
  simp only [transitionRecord, h]

theorem transitionRecord_frame (st : Store) (id : String) (s : Status)
    (acct : String) (j : StoredJson) (h : st.data (recordKey id) = .ok (.obj j)) :
    (transitionRecord st id s acct).1 = .success ∧
    (transitionRecord st id s acct).2.data (recordKey id) =
      .ok (.obj { j with status := some s }) ∧
    ∀ k, k ≠ recordKey id → (transitionRecord st id s acct).2.data k = st.data k := by
  rw [transitionRecord_obj st id s acct j h]
  refine ⟨rfl, by simp [Store.set], fun k hk => by simp [Store.set, hk]⟩

theorem sortByTimestampDesc_pairwise (l : List VoterRecord) :
    List.Pairwise (fun a b => b.timestamp ≤ a.timestamp) (sortByTimestampDesc l) := by
  haveI : IsTotal VoterRecord (fun a b => b.timestamp ≤ a.timestamp) :=
    ⟨fun a b => Nat.le_total b.timestamp a.timestamp⟩
  haveI : IsTrans VoterRecord (fun a b => b.timestamp ≤ a.timestamp) :=
    ⟨fun _ _ _ hab hbc => Nat.le_trans hbc hab⟩
  exact List.sorted_insertionSort _ l

theorem mem_sortByTimestampDesc {r : VoterRecord} {l : List VoterRecord} :
    r ∈ sortByTimestampDesc l ↔ r ∈ l :=
  (List.perm_insertionSort _ l).mem_iff

theorem loadRecords_arr (st : Store) (keys : List String)
    (h1 : st.avail = true) (h2 : st.data indexKey = .ok (.arr keys)) :
    loadRecords st = some (sortByTimestampDesc (keys.filterMap (fetchRecord st))) := by
  simp [loadRecords, h1, h2, indexKeysOfBytes]

theorem loadRecords_eq_some (st : Store) (l : List VoterRecord)
    (h : loadRecords st = some l) :
    ∃ keys : List String, l = sortByTimestampDesc (keys.filterMap (fetchRecord st)) := by
  unfold loadRecords at h
  split at h
  · split at h
    · exact absurd h (by simp)
    · split at h
      · exact absurd h (by simp)
      · exact ⟨_, (Option.some_inj.1 h).symm⟩
  · exact absurd h (by simp)

theorem fetchRecord_id {st : Store} {k : String} {r : VoterRecord}
    (h : fetchRecord st k = some r) : r.id = k := by
  unfold fetchRecord at h
  split at h <;> cases h
  rfl

/-! ### Claim C9: codec round trip -/

/-- C9: for every valid VoterRecord r, decoding the bytes produced by
encoding r (the JSON object written by register, read back by the JSON parse
plus field mapping of refresh, with the id carried by the record key) yields
a record equal to r in all fields. -/
theorem c9_decode_encode_roundtrip (r : VoterRecord) :
    decodeRecord r.id (encodeRecord r) = r := rfl

/-! ### Claim C8: empty or corrupt index falls back to the empty sequence -/

/-- C8: when the index key holds empty bytes or bytes whose decode fails,
the index load step yields the empty id sequence instead of an error, and
refresh proceeds, replacing the snapshot with zero records. -/
theorem c8_index_fallback (st : Store) (h1 : st.avail = true)
    (h2 : st.data indexKey = .ok .empty ∨ st.data indexKey = .ok .corrupt) :
    loadRecords st = some [] := by
  rcases h2 with h | h <;>
    simp [loadRecords, h1, h, indexKeysOfBytes, sortByTimestampDesc]

def c8store : Store := mkStore true [(indexKey, .ok .corrupt)]

/-- Witness for C8 at a concrete store whose index bytes are corrupt. -/
theorem c8_index_fallback_witness :
    c8store.avail = true ∧ loadRecords c8store = some [] :=
  ⟨rfl, c8_index_fallback c8store rfl (Or.inr rfl)⟩

/-! ### Claim C7: refresh sorts by timestamp descending -/

/-- C7: every record list produced by refresh is sorted by timestamp
descending: each timestamp is greater than or equal to every later one. -/
theorem c7_refresh_sorted (st : Store) (l : List VoterRecord)
    (h : loadRecords st = some l) :
    List.Pairwise (fun a b => b.timestamp ≤ a.timestamp) l := by
  obtain ⟨keys, rfl⟩ := loadRecords_eq_some st l h
  exact sortByTimestampDesc_pairwise _

def jX : StoredJson := ⟨"FHE-x", 100, "alice", "North", "18-30", some .pending⟩

def jY : StoredJson := ⟨"FHE-y", 200, "bob", "South", "31-45", some .pending⟩

def c7store : Store :=
  mkStore true [(indexKey, .ok (.arr ["x", "y"])),
                (recordKey "x", .ok (.obj jX)), (recordKey "y", .ok (.obj jY))]

/-- Witness for C7: two stored records with timestamps 200 and 100 come back
from refresh in the order timestamp 200 first, then timestamp 100. -/
theorem c7_refresh_sorted_witness :
    loadRecords c7store = some [decodeRecord "y" jY, decodeRecord "x" jX] ∧
    List.Pairwise (fun a b : VoterRecord => b.timestamp ≤ a.timestamp)
      [decodeRecord "y" jY, decodeRecord "x" jX] :=
  ⟨by decide,
   c7_refresh_sorted c7store [decodeRecord "y" jY, decodeRecord "x" jX] (by decide)⟩

/-! ### Claim C4: refresh skips bad ids and keeps every valid record -/

/-- C4: with an available store and an index holding a list of ids, refresh
completes (ids whose record fetch fails or whose bytes do not decode are
skipped without aborting the whole refresh), and every id with a valid
stored record object appears, decoded, in the result. -/
theorem c4_refresh_resilient (st : Store) (keys : List String)
    (h1 : st.avail = true) (h2 : st.data indexKey = .ok (.arr keys)) :
    (loadRecords st).isSome = true ∧
    ∀ k ∈ keys, ∀ j, st.data (recordKey k) = .ok (.obj j) →
      decodeRecord k j ∈ (loadRecords st).getD [] := by
  rw [loadRecords_arr st keys h1 h2]
  simp only [Option.isSome_some, Option.getD_some, true_and]
  intro k hk j hj
  exact mem_sortByTimestampDesc.2
    (List.mem_filterMap.2 ⟨k, hk, by simp [fetchRecord, hj]⟩)

def jA4 : StoredJson := ⟨"FHE-a", 100, "alice", "North", "18-30", some .pending⟩

def c4store : Store :=
  mkStore true [(indexKey, .ok (.arr ["a", "b"])),
                (recordKey "a", .ok (.obj jA4)), (recordKey "b", .ok .corrupt)]

/-- Witness for C4: index contains a and b, the store holds a valid record
for a (timestamp 100) and corrupt bytes for b; refresh yields exactly the
one record for a, and the record for a is a member of the result. -/
theorem c4_refresh_resilient_witness :
    loadRecords c4store = some [decodeRecord "a" jA4] ∧
    decodeRecord "a" jA4 ∈ (loadRecords c4store).getD [] :=
  ⟨by decide,
   (c4_refresh_resilient c4store ["a", "b"] rfl (by decide)).2 "a" (by decide)
     jA4 (by decide)⟩

/-! ### Claim C10: a successful transition changes only the status field -/

/-- C10: a successful transition (verify or reject both run this body)
rewrites the record under the same key changing only the status field: the
stored data, timestamp, owner, region and ageGroup fields are written back
unchanged, the record keeps its key (hence its id, which refresh reads from
the key), and every other key of the store is untouched. -/
theorem c10_transition_frame (st : Store) (id acct : String) (s : Status)
    (j : StoredJson) (h : st.data (recordKey id) = .ok (.obj j)) :
    (transitionRecord st id s acct).1 = .success ∧
    (transitionRecord st id s acct).2.data (recordKey id) =
      .ok (.obj { data := j.data, timestamp := j.timestamp, owner := j.owner,
                  region := j.region, ageGroup := j.ageGroup,
                  status := some s }) ∧
    ∀ k, k ≠ recordKey id → (transitionRecord st id s acct).2.data k = st.data k :=
  transitionRecord_frame st id s acct j h

def j10 : StoredJson := ⟨"FHE-c", 50, "carol", "East", "46-60", some .pending⟩

def c10store : Store :=
  mkStore true [(indexKey, .ok (.arr ["c"])), (recordKey "c", .ok (.obj j10))]

/-- Witness for C10 at a concrete store: verifying the record of carol
changes only its status field and leaves the index key untouched. -/
theorem c10_transition_frame_witness :
    (transitionRecord c10store "c" .verified "carol").1 = .success ∧
    (transitionRecord c10store "c" .verified "carol").2.data (recordKey "c") =
      .ok (.obj { data := j10.data, timestamp := j10.timestamp,
                  owner := j10.owner, region := j10.region,
                  ageGroup := j10.ageGroup, status := some .verified }) ∧
    (transitionRecord c10store "c" .verified "carol").2.data indexKey =
      c10store.data indexKey :=
  ⟨(c10_transition_frame c10store "c" "carol" .verified j10 (by decide)).1,
   (c10_transition_frame c10store "c" "carol" .verified j10 (by decide)).2.1,
   (c10_transition_frame c10store "c" "carol" .verified j10 (by decide)).2.2
     indexKey (by decide)⟩

/-! ### Claim C5: register writes the record before appending to the index -/

theorem registerStore1_data (st : Store) (acct : String)
    (input : RegisterInput) (rid : String) (ts : Nat) (k : String) :
    (registerStore1 st acct input rid ts).data k =
      if k = recordKey rid then
        .ok (.obj (encodeRecord (newRecord acct input rid ts)))
      else st.data k := rfl

theorem registerVoter_eq (st : Store) (acct : String) (input : RegisterInput)
    (rid : String) (ts : Nat) :
    registerVoter st acct input rid ts =
      match (registerStore1 st acct input rid ts).data indexKey with
      | .err => (.failed, registerStore1 st acct input rid ts)
      | .ok b =>
        match indexKeysOfBytes b with
        | none => (.failed, registerStore1 st acct input rid ts)
        | some keys =>
            (.success rid,
             (registerStore1 st acct input rid ts).set indexKey
               (.arr (keys ++ [rid]))) := rfl

theorem hasRecordObj_true_iff (st : Store) (id : String) :
    hasRecordObj st id = true ↔ ∃ j, st.data (recordKey id) = .ok (.obj j) := by
  unfold hasRecordObj
  split <;> simp_all

theorem indexComplete_after_append (st : Store) (acct : String)
    (input : RegisterInput) (rid : String) (ts : Nat) (ids : List String)
    (hrid : rid ≠ "keys") (hinv : IndexComplete st)
    (hb : st.data indexKey = .ok (.arr ids) ∨ ids = []) :
    IndexComplete
      ((registerStore1 st acct input rid ts).set indexKey (.arr (ids ++ [rid]))) := by
  intro id hid
  have hid' : id ∈ ids ++ [rid] := by
    unfold storedIndex at hid
    rw [Store.set_data, if_pos rfl] at hid
    exact hid
  rw [hasRecordObj_true_iff, Store.set_data]
  rcases List.mem_append.1 hid' with hin | hone
  · rcases hb with hb | rfl
    · obtain ⟨j, hj⟩ := (hasRecordObj_true_iff st id).1
        (hinv id (by unfold storedIndex; rw [hb]; exact hin))
      by_cases hkeys : recordKey id = indexKey
      · rw [hkeys, hb] at hj; cases hj
      · rw [if_neg hkeys, registerStore1_data]
        by_cases hr : recordKey id = recordKey rid
        · rw [if_pos hr]; exact ⟨_, rfl⟩
        · rw [if_neg hr]; exact ⟨j, hj⟩
    · cases hin
  · have hone' : id = rid := by simpa using hone
    subst hone'
    rw [if_neg fun hc => (indexKey_ne_recordKey hrid) hc.symm]
    rw [registerStore1_data, if_pos rfl]
    exact ⟨_, rfl⟩

/-- C5: register writes the encoded record under its record key before
appending the new id to the index, so every store state along the write
sequence of register keeps the invariant that each id present in the stored
index has its record already written (a reader never observes an orphan id
in the index); the only partial-failure state is a record written whose id
is absent from the index, which the failure exits also keep.  The generated
id concatenates a time value and a random suffix and is in particular never
the literal "keys", which would make its record key collide with the index
key. -/
theorem c5_register_no_orphan (st : Store) (acct : String)
    (input : RegisterInput) (rid : String) (ts : Nat)
    (hrid : rid ≠ "keys") (hinv : IndexComplete st) :
    IndexComplete (registerStore1 st acct input rid ts) ∧
    IndexComplete (registerVoter st acct input rid ts).2 := by
  have hidx' : (registerStore1 st acct input rid ts).data indexKey
      = st.data indexKey := by
    rw [registerStore1_data, if_neg (indexKey_ne_recordKey hrid)]
  have inv1 : IndexComplete (registerStore1 st acct input rid ts) := by
    intro id hid
    have hid' : id ∈ storedIndex st := by
      unfold storedIndex at hid ⊢
      rw [hidx'] at hid
      exact hid
    rw [hasRecordObj_true_iff, registerStore1_data]
    by_cases hr : recordKey id = recordKey rid
    · rw [if_pos hr]; exact ⟨_, rfl⟩
    · rw [if_neg hr]
      exact (hasRecordObj_true_iff st id).1 (hinv id hid')
  refine ⟨inv1, ?_⟩
  rw [registerVoter_eq, hidx']
  cases hb : st.data indexKey with
  | err => exact inv1
  | ok b =>
    cases b with
    | empty =>
        exact indexComplete_after_append st acct input rid ts [] hrid hinv (Or.inr rfl)
    | corrupt =>
        exact indexComplete_after_append st acct input rid ts [] hrid hinv (Or.inr rfl)
    | arr ids =>
        exact indexComplete_after_append st acct input rid ts ids hrid hinv (Or.inl hb)
    | obj j => exact inv1

def jC5 : StoredJson := ⟨"FHE-a", 10, "alice", "North", "18-30", some .pending⟩

def c5store : Store :=
  mkStore true [(indexKey, .ok (.arr ["a"])), (recordKey "a", .ok (.obj jC5))]

def c5input : RegisterInput := ⟨"South", "31-45", "info"⟩

/-- Witness for C5: registering a new record r2 on a store whose index lists
a single existing record keeps every prefix of the write sequence free of
orphan index entries. -/
theorem c5_register_no_orphan_witness :
    IndexComplete (registerStore1 c5store "bob" c5input "r2" 20) ∧
    IndexComplete (registerVoter c5store "bob" c5input "r2" 20).2 :=
  c5_register_no_orphan c5store "bob" c5input "r2" 20 (by decide) (by decide)

/-! ### Claim C6: a corrupt index is overwritten with just the new id -/

theorem loadRecords_mem_index (st : Store) (ids : List String)
    (hidx : st.data indexKey = .ok (.arr ids)) (r : VoterRecord)
    (hr : r ∈ (loadRecords st).getD []) : r.id ∈ ids := by
  cases ha : st.avail with
  | false =>
      have hnone : loadRecords st = none := by simp [loadRecords, ha]
      rw [hnone] at hr
      simp at hr
  | true =>
      rw [loadRecords_arr st ids ha hidx] at hr
      simp only [Option.getD_some] at hr
      obtain ⟨k, hk, hfk⟩ := List.mem_filterMap.1 (mem_sortByTimestampDesc.1 hr)
      rw [fetchRecord_id hfk]
      exact hk

/-- C6 (implicit): when the stored index bytes are non-empty but fail to
decode, register succeeds and writes back an index containing exactly the
single new id, discarding every previously registered id from the index;
the record keys of earlier records keep their bytes in the store, yet a
subsequent refresh can only return records carrying the new id, so the
earlier records are undiscoverable. -/
theorem c6_corrupt_index_discards (st : Store) (acct : String)
    (input : RegisterInput) (rid : String) (ts : Nat)
    (hrid : rid ≠ "keys") (hcor : st.data indexKey = .ok .corrupt) :
    (registerVoter st acct input rid ts).1 = .success rid ∧
    (registerVoter st acct input rid ts).2.data indexKey = .ok (.arr [rid]) ∧
    (∀ k, k ≠ recordKey rid → k ≠ indexKey →
      (registerVoter st acct input rid ts).2.data k = st.data k) ∧
    (∀ r ∈ (loadRecords (registerVoter st acct input rid ts).2).getD [],
      r.id = rid) := by
  have hidx' : (registerStore1 st acct input rid ts).data indexKey
      = st.data indexKey := by
    rw [registerStore1_data, if_neg (indexKey_ne_recordKey hrid)]
  have hreg : registerVoter st acct input rid ts =
      (.success rid,
       (registerStore1 st acct input rid ts).set indexKey (.arr [rid])) := by
    rw [registerVoter_eq, hidx', hcor]
    rfl
  refine ⟨by rw [hreg], ?_, ?_, ?_⟩
  · rw [hreg, Store.set_data, if_pos rfl]
  · intro k hk1 hk2
    rw [hreg, Store.set_data, if_neg hk2, registerStore1_data, if_neg hk1]
  · intro r hr
    rw [hreg] at hr
    have h2 : ((registerStore1 st acct input rid ts).set indexKey
        (.arr [rid])).data indexKey = .ok (.arr [rid]) := by
      rw [Store.set_data, if_pos rfl]
    simpa using loadRecords_mem_index _ [rid] h2 r hr

def jOld : StoredJson := ⟨"FHE-o", 10, "olga", "West", "61+", some .verified⟩

def c6store : Store :=
  mkStore true [(indexKey, .ok .corrupt), (recordKey "old", .ok (.obj jOld))]

def c6input : RegisterInput := ⟨"North", "18-30", "data"⟩

/-- Witness for C6: on a store with corrupt index bytes and one earlier
record, registering r2 succeeds, the written index lists exactly r2, and the
bytes of the earlier record key are untouched. -/
theorem c6_corrupt_index_discards_witness :
    (registerVoter c6store "bob" c6input "r2" 20).1 = .success "r2" ∧
    (registerVoter c6store "bob" c6input "r2" 20).2.data indexKey =
      .ok (.arr ["r2"]) ∧
    (registerVoter c6store "bob" c6input "r2" 20).2.data (recordKey "old") =
      .ok (.obj jOld) :=
  ⟨(c6_corrupt_index_discards c6store "bob" c6input "r2" 20 (by decide) (by decide)).1,
   (c6_corrupt_index_discards c6store "bob" c6input "r2" 20 (by decide) (by decide)).2.1,
   ((c6_corrupt_index_discards c6store "bob" c6input "r2" 20 (by decide)
       (by decide)).2.2.1 (recordKey "old") (by decide) (by decide)).trans
     (by decide)⟩

/-! ### Claim C1: ownership check on transitions (corrected) -/

def j1 : StoredJson := ⟨"FHE-1", 100, "alice", "North", "18-30", some .pending⟩

def c1store : Store :=
  mkStore true [(indexKey, .ok (.arr ["r1"])), (recordKey "r1", .ok (.obj j1))]

/-- Counterexample to C1 as stated: the stored record r1 is owned by alice
and pending, the acting principal bob differs from the owner, yet
verifyRecord does not fail with any error: it succeeds and moves the stored
status out of pending to verified. -/
theorem c1_counterexample :
    "bob" ≠ "alice" ∧ j1.owner = "alice" ∧ j1.status = some .pending ∧
    c1store.data (recordKey "r1") = .ok (.obj j1) ∧
    (verifyRecord c1store "r1" "bob").1 = .success ∧
    (verifyRecord c1store "r1" "bob").2.data (recordKey "r1") =
      .ok (.obj { j1 with status := some .verified }) := by decide

/-- C1 (amended): the transition operations verifyRecord and rejectRecord
perform no ownership check at all: for every store, record id and acting
principal - whether or not it equals the stored owner field - a transition
on a stored record object succeeds and rewrites the stored status.  The only
ownership gate in the source is in the presentation layer, which renders the
Verify and Reject buttons only for the owner of a pending record; the
operations themselves never reject a caller. -/
theorem c1_no_ownership_check (st : Store) (id acct : String) (j : StoredJson)
    (h : st.data (recordKey id) = .ok (.obj j)) :
    (verifyRecord st id acct).1 = .success ∧
    (verifyRecord st id acct).2.data (recordKey id) =
      .ok (.obj { j with status := some .verified }) ∧
    (rejectRecord st id acct).1 = .success ∧
    (rejectRecord st id acct).2.data (recordKey id) =
      .ok (.obj { j with status := some .rejected }) :=
  ⟨(transitionRecord_frame st id .verified acct j h).1,
   (transitionRecord_frame st id .verified acct j h).2.1,
   (transitionRecord_frame st id .rejected acct j h).1,
   (transitionRecord_frame st id .rejected acct j h).2.1⟩

/-- Witness for amended C1: the non-owner bob acting on the record owned by
alice succeeds in both directions. -/
theorem c1_no_ownership_check_witness :
    (verifyRecord c1store "r1" "bob").1 = .success ∧
    (verifyRecord c1store "r1" "bob").2.data (recordKey "r1") =
      .ok (.obj { j1 with status := some .verified }) ∧
    (rejectRecord c1store "r1" "bob").1 = .success ∧
    (rejectRecord c1store "r1" "bob").2.data (recordKey "r1") =
      .ok (.obj { j1 with status := some .rejected }) :=
  c1_no_ownership_check c1store "r1" "bob" j1 (by decide)

/-! ### Claim C2: terminal statuses on transitions (corrected) -/

def j2 : StoredJson := ⟨"FHE-2", 100, "alice", "North", "18-30", some .pending⟩

def c2store : Store :=
  mkStore true [(indexKey, .ok (.arr ["r1"])), (recordKey "r1", .ok (.obj j2))]

/-- Counterexample to C2 as stated: after a successful verifyRecord(r1) by
the owner the stored status is verified, a status the claim calls terminal,
yet a further rejectRecord(r1) does not fail with any error: it succeeds and
overwrites the stored status with rejected. -/
theorem c2_counterexample :
    (verifyRecord c2store "r1" "alice").1 = .success ∧
    (verifyRecord c2store "r1" "alice").2.data (recordKey "r1") =
      .ok (.obj { j2 with status := some .verified }) ∧
    (rejectRecord (verifyRecord c2store "r1" "alice").2 "r1" "alice").1 =
      .success ∧
    (rejectRecord (verifyRecord c2store "r1" "alice").2 "r1" "alice").2.data
        (recordKey "r1") = .ok (.obj { j2 with status := some .rejected }) := by
  decide

/-- C2 (amended): the transition operations never inspect the stored status,
so verified and rejected are not terminal in the stored data: any record
stored as a record object can be transitioned again, whatever its current
status; in particular a successful verify followed by a reject succeeds and
leaves the stored status rejected.  Terminality is enforced only by the
presentation layer, which hides the action buttons once the status leaves
pending. -/
theorem c2_no_terminal_status (st : Store) (id acct : String) (j : StoredJson)
    (h : st.data (recordKey id) = .ok (.obj j)) :
    (verifyRecord st id acct).1 = .success ∧
    (rejectRecord (verifyRecord st id acct).2 id acct).1 = .success ∧
    (rejectRecord (verifyRecord st id acct).2 id acct).2.data (recordKey id) =
      .ok (.obj { j with status := some .rejected }) := by
  have h1 := transitionRecord_frame st id .verified acct j h
  have h2 := transitionRecord_frame (verifyRecord st id acct).2 id .rejected
    acct { j with status := some .verified } h1.2.1
  exact ⟨h1.1, h2.1, h2.2.1⟩

/-- Witness for amended C2: verify then reject on the same record, both by
the owner, both succeed. -/
theorem c2_no_terminal_status_witness :
    (verifyRecord c2store "r1" "alice").1 = .success ∧
    (rejectRecord (verifyRecord c2store "r1" "alice").2 "r1" "alice").1 =
      .success ∧
    (rejectRecord (verifyRecord c2store "r1" "alice").2 "r1" "alice").2.data
        (recordKey "r1") = .ok (.obj { j2 with status := some .rejected }) :=
  c2_no_terminal_status c2store "r1" "alice" j2 (by decide)

/-! ### Claim C3: availability probe (corrected) -/

theorem registerVoter_writes_record (st : Store) (acct : String)
    (input : RegisterInput) (rid : String) (ts : Nat) (hrid : rid ≠ "keys") :
    (registerVoter st acct input rid ts).2.data (recordKey rid) =
      .ok (.obj (encodeRecord (newRecord acct input rid ts))) := by
  have hst1 : (registerStore1 st acct input rid ts).data (recordKey rid) =
      .ok (.obj (encodeRecord (newRecord acct input rid ts))) := by
    rw [registerStore1_data, if_pos rfl]
  rw [registerVoter_eq]
  cases hb : (registerStore1 st acct input rid ts).data indexKey with
  | err => exact hst1
  | ok b =>
    cases b with
    | empty =>
        simp only [indexKeysOfBytes, Store.set_data]
        rw [if_neg fun hc => (indexKey_ne_recordKey hrid) hc.symm]
        exact hst1
    | corrupt =>
        simp only [indexKeysOfBytes, Store.set_data]
        rw [if_neg fun hc => (indexKey_ne_recordKey hrid) hc.symm]
        exact hst1
    | arr ids =>
        simp only [indexKeysOfBytes, Store.set_data]
        rw [if_neg fun hc => (indexKey_ne_recordKey hrid) hc.symm]
        exact hst1
    | obj j => exact hst1

def j3 : StoredJson := ⟨"FHE-3", 100, "alice", "North", "18-30", some .pending⟩

def c3store : Store :=
  mkStore false [(indexKey, .ok (.arr ["r1"])), (recordKey "r1", .ok (.obj j3))]

def c3input : RegisterInput := ⟨"East", "46-60", "x"⟩

/-- Counterexample to C3 as stated: the availability probe of the store
returns false, yet verifyRecord neither surfaces an error nor stops before
the store calls: it succeeds, and the bytes stored under the record key
differ afterwards, so a write to the store was performed after the probe
would have returned false. -/
theorem c3_counterexample :
    c3store.avail = false ∧
    (verifyRecord c3store "r1" "alice").1 = .success ∧
    (verifyRecord c3store "r1" "alice").2.data (recordKey "r1") ≠
      c3store.data (recordKey "r1") := by decide

/-- C3 (amended): only refresh consults the availability probe; when the
probe returns false, refresh stops before any index or record access and
leaves the cached snapshot unreplaced, but surfaces no error to its caller
(the failure is only logged).  Register and the transitions never call the
probe and perform their store reads and writes regardless of availability:
on an unavailable store a transition on a stored record object still
succeeds and rewrites the status, and register still writes the new
record. -/
theorem c3_only_refresh_probes (st : Store) (id acct : String)
    (j : StoredJson) (input : RegisterInput) (rid : String) (ts : Nat)
    (havail : st.avail = false) (hrid : rid ≠ "keys") :
    loadRecords st = none ∧
    (st.data (recordKey id) = .ok (.obj j) →
      (verifyRecord st id acct).1 = .success ∧
      (verifyRecord st id acct).2.data (recordKey id) =
        .ok (.obj { j with status := some .verified })) ∧
    (registerVoter st acct input rid ts).2.data (recordKey rid) =
      .ok (.obj (encodeRecord (newRecord acct input rid ts))) :=
  ⟨by simp [loadRecords, havail],
   fun h => ⟨(transitionRecord_frame st id .verified acct j h).1,
             (transitionRecord_frame st id .verified acct j h).2.1⟩,
   registerVoter_writes_record st acct input rid ts hrid⟩

/-- Witness for amended C3 at a concrete unavailable store. -/
theorem c3_only_refresh_probes_witness :
    loadRecords c3store = none ∧
    (c3store.data (recordKey "r1") = .ok (.obj j3) →
      (verifyRecord c3store "r1" "alice").1 = .success ∧
      (verifyRecord c3store "r1" "alice").2.data (recordKey "r1") =
        .ok (.obj { j3 with status := some .verified })) ∧
    (registerVoter c3store "alice" c3input "r2" 20).2.data (recordKey "r2") =
      .ok (.obj (encodeRecord (newRecord "alice" c3input "r2" 20))) :=
  c3_only_refresh_probes c3store "r1" "alice" j3 c3input "r2" 20 rfl (by decide)
